import Mathlib

/-!
Verification of the ETL pipeline notebooks (CoinCap market data → pandas →
CSV / Postgres).  The repository holds two Jupyter notebooks sharing most of
their code:

* `src/unnamed/part_000` — the bitcoin time-series pipeline (`extract`,
  `transform` with type coercion / ISO-date reduction / column drop /
  rounding, `df_to_csv`, SQLAlchemy load);
* `src/your_jup_notebooks/etl_pipeline_crypto_mkt.ipynb` — the asset-listing
  pipeline (`extract`, `transform` with type coercion / null substitution on
  `maxSupply` and `explorer` / rounding, `df_to_csv`, SQLAlchemy load).

The shallow embedding below models JSON values, pandas DataFrames as ordered
column lists with association-list rows, and each notebook function.  Python
numbers are modelled as rationals; pandas `NaN` / `None` / `NaT` are all
modelled by the single missing value `JVal.null`.  Operations that pandas
performs atomically on a whole column (`astype`, `round`, `to_datetime`) are
modelled check-then-map: the column either converts entirely or the
corresponding Python exception is raised, exactly as in the library.
-/

/-- A decoded JSON value (plus the two non-JSON cell values that appear in
the notebooks' DataFrames: rational numbers standing for Python floats /
int64 cells are split into `num` and `int` to mirror pandas dtypes, and
`date` cells produced by `pd.to_datetime(...).dt.date`). -/
inductive JVal where
  | null
  | str (s : String)
  | num (q : ℚ)
  | int (n : ℤ)
  | date (y m d : ℕ)
  | arr (xs : List JVal)
  | obj (fields : List (String × JVal))

/-- Errors a notebook run can raise (Python exceptions), together with the
spec document's `FetchError`/`IOError` taxonomy entries, which the code never
produces but which are needed to state the spec's claims. -/
inductive PyErr where
  | coercion (col : String)
  | keyError (key : String)
  | typeError (col : String)
  | nameError
  | unboundLocalError
  | valueError (msg : String)
  | fetchError (status : ℕ)
  | ioError
deriving DecidableEq, Repr

/-- A pandas DataFrame: an ordered column schema and one association list per
row.  `pd.json_normalize` always produces rows whose keys are exactly `cols`
in order; the operations below do not rely on that invariant. -/
structure DataFrame where
  cols : List String
  rows : List (List (String × JVal))

/-- Target dtypes used by the notebooks' `cols_datatypes` dictionaries. -/
inductive PType where
  | float
  | int
deriving DecidableEq, Repr

def JVal.isNull : JVal → Bool
  | .null => true
  | _ => false

def JVal.isObj : JVal → Bool
  | .obj _ => true
  | _ => false

def JVal.objFields : JVal → List (String × JVal)
  | .obj fs => fs
  | _ => []

/-- Numeric value of a digit-character list, most significant first. -/
def digitsVal (cs : List Char) : ℕ :=
  cs.foldl (fun a c => a * 10 + (c.toNat - 48)) 0

/-- The fragment of Python `float(s)` exercised by the data: an optional
sign, then decimal digits with an optional fractional part.  Returns `none`
exactly when Python raises `ValueError` on such strings. -/
def parseFloat (s : String) : Option ℚ :=
  let signed : ℚ × List Char :=
    match s.data with
    | '-' :: r => (-1, r)
    | '+' :: r => (1, r)
    | r => (1, r)
  let sign := signed.1
  let rest := signed.2
  let ip := rest.takeWhile (·.isDigit)
  let tail := rest.dropWhile (·.isDigit)
  match tail with
  | [] => if ip.isEmpty then none else some (sign * (digitsVal ip : ℚ))
  | '.' :: fp =>
    if fp.all (·.isDigit) && !(ip.isEmpty && fp.isEmpty) then
      some (sign * ((digitsVal ip : ℚ) + (digitsVal fp : ℚ) / (10 : ℚ) ^ fp.length))
    else none
  | _ => none

/-- Python `int(s)`: optional sign and decimal digits. -/
def parseInt (s : String) : Option ℤ :=
  let signed : ℤ × List Char :=
    match s.data with
    | '-' :: r => (-1, r)
    | '+' :: r => (1, r)
    | r => (1, r)
  if signed.2.isEmpty || !signed.2.all (·.isDigit) then none
  else some (signed.1 * (digitsVal signed.2 : ℤ))

/-- The fragment of `pd.to_datetime` string parsing the data exercises:
an ISO-8601 `YYYY-MM-DD` prefix, optionally followed by a `T...` time part.
Returns the calendar date, as `.dt.date` then extracts it. -/
def parseISODate (s : String) : Option (ℕ × ℕ × ℕ) :=
  match s.data with
  | y1 :: y2 :: y3 :: y4 :: '-' :: m1 :: m2 :: '-' :: d1 :: d2 :: rest =>
    if [y1, y2, y3, y4, m1, m2, d1, d2].all (·.isDigit)
        && (rest.isEmpty || rest.headD ' ' == 'T') then
      let m := digitsVal [m1, m2]
      let d := digitsVal [d1, d2]
      if 1 ≤ m ∧ m ≤ 12 ∧ 1 ≤ d ∧ d ≤ 31 then
        some (digitsVal [y1, y2, y3, y4], m, d)
      else none
    else none
  | _ => none

/-- Truncation toward zero, as numpy's float→int64 cast does. -/
def ratTrunc (q : ℚ) : ℤ :=
  if 0 ≤ q then ⌊q⌋ else ⌈q⌉

/-- Round-half-to-even to the nearest integer, the IEEE-754 rounding used by
`numpy.round` underlying `Series.round`. -/
def rhe (q : ℚ) : ℤ :=
  let f := ⌊q⌋
  let r := q - (f : ℚ)
  if r < 1 / 2 then f
  else if 1 / 2 < r then f + 1
  else if f % 2 = 0 then f else f + 1

/-- `Series.round(2)`: round to two decimal places, half to even. -/
def round2 (q : ℚ) : ℚ :=
  (rhe (q * 100) : ℚ) / 100

/-- One cell under `Series.astype(target)`.  `none` models the cast raising.
Floats keep `NaN` (`null`) as `NaN`; casting `NaN` to int64 raises. -/
def astypeCell : PType → JVal → Option JVal
  | .float, .str s => (parseFloat s).map .num
  | .float, .num q => some (.num q)
  | .float, .int n => some (.num (n : ℚ))
  | .float, .null => some .null
  | .float, _ => none
  | .int, .str s => (parseInt s).map .int
  | .int, .num q => some (.int (ratTrunc q))
  | .int, .int n => some (.int n)
  | .int, _ => none

/-- Rewrite the cells of one named column of a row. -/
def rowSet (c : String) (f : JVal → JVal) (r : List (String × JVal)) :
    List (String × JVal) :=
  r.map (fun kv => if kv.1 = c then (kv.1, f kv.2) else kv)

/-- `df[c] = df[c].astype(ty)` guarded by `if c in df.columns` (the body of
the notebooks' `convert_cols_cat_to_num` loop).  pandas converts the whole
column atomically or raises; the raise is the spec's CoercionError. -/
def astypeCol (ty : PType) (c : String) (df : DataFrame) :
    Except PyErr DataFrame :=
  if c ∈ df.cols then
    if df.rows.all (fun r => r.all (fun kv => kv.1 != c || (astypeCell ty kv.2).isSome)) then
      .ok ⟨df.cols, df.rows.map (rowSet c (fun v => (astypeCell ty v).getD v))⟩
    else .error (.coercion c)
  else .ok df

/-- The notebooks' `convert_cols_cat_to_num(df, cols_datatypes)`: iterate the
dtype dictionary in insertion order, casting each column that is present. -/
def convert_cols_cat_to_num (df : DataFrame) (spec : List (String × PType)) :
    Except PyErr DataFrame :=
  spec.foldlM (fun d p => astypeCol p.2 p.1 d) df

/-- `df[c] = df[c].fillna(fill)`: `KeyError` if the column is absent,
otherwise replace the missing cells of the column. -/
def fillnaCol (c : String) (fill : JVal) (df : DataFrame) :
    Except PyErr DataFrame :=
  if c ∈ df.cols then
    .ok ⟨df.cols, df.rows.map (rowSet c (fun v => if v.isNull then fill else v))⟩
  else .error (.keyError c)

/-- Cells `numpy.round` accepts: numbers and `NaN`. -/
def roundableCell : JVal → Bool
  | .num _ => true
  | .int _ => true
  | .null => true
  | _ => false

/-- `round(2)` on one cell: floats round half-to-even, int64 and `NaN` are
unchanged. -/
def roundCellTotal : JVal → JVal
  | .num q => .num (round2 q)
  | v => v

def colRoundable (c : String) (df : DataFrame) : Bool :=
  df.rows.all (fun r => r.all (fun kv => kv.1 != c || roundableCell kv.2))

/-- `df[cs] = df[cs].apply(lambda x: x.round(2))`: the selection raises
`KeyError` on a missing column, `round` raises `TypeError` on a non-numeric
column, otherwise every cell of the named columns is rounded. -/
def roundCols (cs : List String) (df : DataFrame) : Except PyErr DataFrame :=
  match cs.find? (fun c => !df.cols.contains c) with
  | some c => .error (.keyError c)
  | none =>
    match cs.find? (fun c => !colRoundable c df) with
    | some c => .error (.typeError c)
    | none =>
      .ok ⟨df.cols, df.rows.map (fun r =>
        r.map (fun kv => if kv.1 ∈ cs then (kv.1, roundCellTotal kv.2) else kv))⟩

mutual

/-- Flatten one JSON value under a dotted key prefix, as `pd.json_normalize`
does with `sep`: nested objects contribute `parent.child` keys, every other
value (arrays included) is kept whole. -/
def flattenVal (sep : String) (pre : String) : JVal → List (String × JVal)
  | .obj fs => flattenFields sep pre fs
  | v => [(pre, v)]

/-- Flatten the fields of a JSON object under a prefix (see `flattenVal`). -/
def flattenFields (sep : String) (pre : String) :
    List (String × JVal) → List (String × JVal)
  | [] => []
  | (k, v) :: rest =>
    flattenVal sep (if pre = "" then k else pre ++ sep ++ k) v
      ++ flattenFields sep pre rest

end

/-- Append a key if it has not been seen yet (pandas keeps first-seen column
order while unioning record keys). -/
def addKey (acc : List String) (k : String) : List String :=
  if k ∈ acc then acc else acc ++ [k]

/-- First-seen-order union of the key lists of all records. -/
def unionKeys (kss : List (List String)) : List String :=
  kss.foldl (fun acc ks => ks.foldl addKey acc) []

/-- `pd.json_normalize(raw, record_path=recordPath, sep=sep)`: look up the
record list, require every record to be a JSON object, flatten each record,
and build one row per record over the first-seen union schema; keys a record
lacks become `NaN`.  A missing or non-list record field and a non-object
record raise. -/
def json_normalize (raw : JVal) (recordPath : String) (sep : String) :
    Except PyErr DataFrame :=
  match raw with
  | .obj fs =>
    match fs.lookup recordPath with
    | some (.arr recs) =>
      if recs.all JVal.isObj then
        let frecs := recs.map (fun r => flattenFields sep "" r.objFields)
        let cols := unionKeys (frecs.map (fun fr => fr.map Prod.fst))
        .ok ⟨cols, frecs.map (fun fr => cols.map (fun c => (c, (fr.lookup c).getD .null)))⟩
      else .error (.typeError recordPath)
    | _ => .error (.keyError recordPath)
  | _ => .error (.keyError recordPath)

/-- How `convert_cols_cat_to_num` relates one input cell to the output cell
at the same position: keys are preserved; a cell whose column is not in the
dtype dictionary, or not among the DataFrame's columns, is untouched; a cell
of a present dictionary column is the (successful) cast of the input cell. -/
def convCellRel (spec : List (String × PType)) (cols : List String)
    (kv kv' : String × JVal) : Prop :=
  kv'.1 = kv.1
  ∧ ((kv.1 ∉ spec.map Prod.fst ∨ kv.1 ∉ cols) → kv'.2 = kv.2)
  ∧ (∀ ty, (kv.1, ty) ∈ spec → kv.1 ∈ cols → astypeCell ty kv.2 = some kv'.2)

/-- An HTTP response as seen by `requests.get`: a status code and the
JSON-decoded body `r.json()` would return. -/
structure HttpResponse where
  status : ℕ
  body : JVal

/-- The observable behaviour of one `extract(url)` call: the GET requests it
issued, what it printed, and its outcome. -/
structure ExtractResult where
  requests : List String
  printed : List String
  result : Except PyErr JVal

/-- The notebooks' `extract(api_get_request_url)` (identical in both): one
`requests.get`; on status 200 the decoded body is bound to `raw_data_json`
and returned; on any other status an error message naming the status is
printed and the trailing `return raw_data_json` then raises
`UnboundLocalError`, because the variable was never assigned. -/
def extract (api_get_request_url : String) (http : String → HttpResponse) :
    ExtractResult :=
  let r := http api_get_request_url
  if r.status = 200 then
    { requests := [api_get_request_url], printed := [], result := .ok r.body }
  else
    { requests := [api_get_request_url]
      printed := ["Error. Non-success status code: " ++ toString r.status]
      result := .error .unboundLocalError }

/-- How the filesystem answers the `df.to_csv` call. -/
inductive WriteOutcome where
  | writeOk
  | permissionDenied
  | missingDirectory
  | diskFull
deriving DecidableEq, Repr

def writeFailureMsg : WriteOutcome → String
  | .writeOk => ""
  | .permissionDenied => "Permission denied"
  | .missingDirectory => "No such file or directory"
  | .diskFull => "No space left on device"

/-- The file at the target path, as `df.to_csv(path)` can leave it:
untouched content from before, a complete serialization of a table, or a
truncated/incomplete serialization — `to_csv` opens the path in mode `w`,
which truncates the old content before any row is written, so a failure
during writing (disk full) destroys the previous file and leaves a
partial one. -/
inductive FileState where
  | absent
  | complete (df : DataFrame)
  | truncated (df : DataFrame)

/-- Result of a `df_to_csv` call.  `fileAfter` is the file at the target
path afterwards; `raised` records an exception escaping the call — the bare
`except` in the source guarantees it is always `none`. -/
structure CsvResult where
  fileAfter : FileState
  printed : List String
  raised : Option PyErr

/-- The notebooks' `df_to_csv(df, file_name)` (identical in both): try to
write; on success print a success message (the write replaces any existing
file at the path); on ANY exception — including `df` being `None` after a
swallowed transform failure, which makes `df.to_csv` raise
`AttributeError` — print a diagnostic and return normally.  A failure of
the `open` itself (permission denied, missing directory) happens before
the truncation and leaves the file as it was; a disk-full failure happens
after it and leaves a truncated partial file. -/
def df_to_csv (df : Option DataFrame) (disk : WriteOutcome)
    (fileBefore : FileState) (file_name : String) : CsvResult :=
  match df with
  | none =>
    { fileAfter := fileBefore
      printed := ["An error occurred while saving the DataFrame to CSV: AttributeError"]
      raised := none }
  | some d =>
    match disk with
    | .writeOk =>
      { fileAfter := .complete d
        printed := ["DataFrame successfully saved to " ++ file_name]
        raised := none }
    | .permissionDenied =>
      { fileAfter := fileBefore
        printed := ["An error occurred while saving the DataFrame to CSV: "
          ++ writeFailureMsg .permissionDenied]
        raised := none }
    | .missingDirectory =>
      { fileAfter := fileBefore
        printed := ["An error occurred while saving the DataFrame to CSV: "
          ++ writeFailureMsg .missingDirectory]
        raised := none }
    | .diskFull =>
      { fileAfter := .truncated d
        printed := ["An error occurred while saving the DataFrame to CSV: "
          ++ writeFailureMsg .diskFull]
        raised := none }

namespace TS

/-- `cols_datatypes` of the time-series notebook (`src/unnamed/part_000`). -/
def cols_datatypes : List (String × PType) := [("priceUsd", .float)]

/-- `cols_to_round` of the time-series notebook. -/
def cols_to_round : List String := ["priceUsd"]

/-- One cell under `pd.to_datetime(...).dt.date`: ISO strings parse to a
calendar date, dates pass through, `NaN`/`None` become `NaT` and stay
missing; anything else is outside the modelled fragment and raises. -/
def dateCell : JVal → Option JVal
  | .str s => (parseISODate s).map (fun t => .date t.1 t.2.1 t.2.2)
  | .date y m d => some (.date y m d)
  | .null => some .null
  | _ => none

/-- The notebook's inner `convert_iso_date_to_datetime(df, col_name)`: the
whole body is inside `try`, and on any exception — a missing column, an
unparseable date, or `df` being `None` — it prints and returns `None`. -/
def convert_iso_date_to_datetime : Option DataFrame → String → Option DataFrame
  | none, _ => none
  | some df, c =>
    if c ∈ df.cols then
      if df.rows.all (fun r => r.all (fun kv => kv.1 != c || (dateCell kv.2).isSome)) then
        some ⟨df.cols, df.rows.map (rowSet c (fun v => (dateCell v).getD v))⟩
      else none
    else none

/-- The notebook's inner `drop_columns(df, cols_to_drop)`: inside `try`;
`df.drop` raises `KeyError` on a missing column and `AttributeError` on
`None`, both caught, printing and returning `None`. -/
def drop_columns : Option DataFrame → List String → Option DataFrame
  | none, _ => none
  | some df, cs =>
    if cs.all (fun c => df.cols.contains c) then
      some ⟨df.cols.filter (fun c => !cs.contains c),
            df.rows.map (fun r => r.filter (fun kv => !cs.contains kv.1))⟩
    else none

/-- The notebook's inner `round_to_two_decimal_places(df, cols_to_round)`:
the shared `df[cols].apply(lambda x: x.round(2))` body inside `try`, any
exception printing and returning `None`. -/
def round_to_two_decimal_places : Option DataFrame → List String → Option DataFrame
  | none, _ => none
  | some df, cs => (roundCols cs df).toOption

/-- The time-series `transform(raw_data_json, cols_datatypes, cols_to_round)`:
normalize, coerce (uncaught — `convert_cols_cat_to_num` has no handler, so a
cast failure raises out of `transform`), then the three caught steps, whose
failures cascade a `None` down to the returned value. -/
def transform (raw : JVal) (spec : List (String × PType)) (cs : List String) :
    Except PyErr (Option DataFrame) := do
  let df ← json_normalize raw "data" "."
  let d1 ← convert_cols_cat_to_num df spec
  let d2 := convert_iso_date_to_datetime (some d1) "date"
  let d3 := drop_columns d2 ["time"]
  let d4 := round_to_two_decimal_places d3 cs
  pure d4

/-- A CSV-sink invocation observed while running the notebook cells. -/
inductive SinkEvent where
  | csvSink (df : Option DataFrame) (path : String)

/-- The notebook's driver cells after extraction: `transform` is called in a
`try/except` that only prints; the next cell calls
`df_to_csv(cleaned_data_df, path)` unconditionally.  If `transform` raised,
`cleaned_data_df` was never assigned and the call itself dies with
`NameError` before the sink function runs; otherwise the sink is invoked
with whatever `transform` returned — including `None`. -/
def script (raw : JVal) (path : String) : List SinkEvent :=
  match transform raw cols_datatypes cols_to_round with
  | .ok d => [.csvSink d path]
  | .error _ => []

end TS

namespace AL

/-- `cols_datatypes` of the asset-listing notebook
(`src/your_jup_notebooks/etl_pipeline_crypto_mkt.ipynb`), in dict insertion
order. -/
def cols_datatypes : List (String × PType) :=
  [("rank", .int), ("supply", .float), ("maxSupply", .float),
   ("marketCapUsd", .float), ("volumeUsd24Hr", .float), ("priceUsd", .float),
   ("changePercent24Hr", .float), ("vwap24Hr", .float)]

/-- `cols_to_round` of the asset-listing notebook. -/
def cols_to_round : List String :=
  ["supply", "maxSupply", "marketCapUsd", "priceUsd", "changePercent24Hr", "vwap24Hr"]

/-- The cleaning stages of the asset-listing `transform`, applied to the
normalized table: type coercion, the two hardcoded null substitutions, then
rounding.  None of these lines is wrapped in a handler, so any failure
raises out of `transform`. -/
def cleanTable (df : DataFrame) : Except PyErr DataFrame := do
  let d1 ← convert_cols_cat_to_num df cols_datatypes
  let d2 ← fillnaCol "maxSupply" (.num 0) d1
  let d3 ← fillnaCol "explorer" (.str "not available") d2
  roundCols cols_to_round d3

/-- The asset-listing `transform(raw_data_json, cols_datatypes,
cols_to_round)`: `pd.json_normalize` on the `data` records followed by the
cleaning stages of `cleanTable`. -/
def transform (raw : JVal) : Except PyErr DataFrame := do
  let df ← json_normalize raw "data" "."
  cleanTable df

/-- Re-running just the coercion and rounding stages on a table, for the
idempotence property. -/
def reclean (df : DataFrame) : Except PyErr DataFrame := do
  let d ← convert_cols_cat_to_num df cols_datatypes
  roundCols cols_to_round d

/-- The observable actions of an asset-listing notebook run. -/
inductive Event where
  | httpGet (url : String)
  | csvWrite (path : String)
  | configCheck
  | createEngine
  | dbReplace (table : String)
deriving DecidableEq, Repr

/-- Python truthiness of `os.getenv(...)`: unset (`None`) and the empty
string are both falsy under `all([...])`. -/
def truthy : Option String → Bool
  | none => false
  | some s => !s.isEmpty

def assetsUrl : String := "https://api.coincap.io/v2/assets"

/-- The asset-listing notebook, cell by cell: extract (cell 6) — an
uncaught extraction error stops the run; transform (cell 13) in a
`try/except` that prints — after a swallowed transform failure the
`df_to_csv(cleaned_data_df, ...)` cell dies with `NameError`; the CSV sink
(cell 18); the environment check and engine creation (cell 21) — the
`ValueError` for missing settings is raised only here, after the network
and CSV activity; the table load (cell 24). -/
def script (resp : HttpResponse) (env : String → Option String) (csvPath : String) :
    List Event × Except PyErr Unit :=
  match (extract assetsUrl (fun _ => resp)).result with
  | .error e => ([.httpGet assetsUrl], .error e)
  | .ok raw =>
    match transform raw with
    | .error _ => ([.httpGet assetsUrl], .error .nameError)
    | .ok _ =>
      if truthy (env "POSTGRES_USER") && truthy (env "POSTGRES_PASSWORD")
          && truthy (env "POSTGRES_HOST") && truthy (env "POSTGRES_DB") then
        ([.httpGet assetsUrl, .csvWrite csvPath, .configCheck, .createEngine,
          .dbReplace "crypto_mkt"], .ok ())
      else
        ([.httpGet assetsUrl, .csvWrite csvPath, .configCheck],
         .error (.valueError "One or more environment variables for the database connection are not set"))

end AL

@[simp] theorem exceptOkBind {α β ε : Type} (a : α) (f : α → Except ε β) :
    (Except.ok a >>= f : Except ε β) = f a := rfl

@[simp] theorem exceptErrorBind {α β ε : Type} (e : ε) (f : α → Except ε β) :
    (Except.error e >>= f : Except ε β) = .error e := rfl

@[simp] theorem exceptPureEq {α ε : Type} (a : α) :
    (pure a : Except ε α) = .ok a := rfl

/-- The concrete time-series response of the spec's scenario for the
Cleaner. -/
def c4raw : JVal :=
  .obj [("data", .arr [.obj [("priceUsd", .str "16708.5235619029337193"),
                             ("time", .num 1672617600000),
                             ("date", .str "2023-01-02T00:00:00.000Z")]]),
        ("timestamp", .num 1717156800000)]

/-- C4: on the RawResponse holding the single record
`priceUsd = "16708.5235619029337193"`, `time = 1672617600000`,
`date = "2023-01-02T00:00:00.000Z"`, the time-series `transform` with its
typeSpec `priceUsd ↦ float`, roundSpec `priceUsd`, date column `date` and
dropped column `time` produces exactly one row, `priceUsd = 16708.52` and
`date = 2023-01-02`. -/
theorem ts_transform_concrete_scenario :
    TS.transform c4raw TS.cols_datatypes TS.cols_to_round =
      .ok (some ⟨["priceUsd", "date"],
        [[("priceUsd", .num (16708.52 : ℚ)), ("date", .date 2023 1 2)]]⟩) := by
  with_unfolding_all rfl

/-- A time-series response whose `date` value no parser accepts, driving the
temporal-normalization step into its exception handler. -/
def tsBadRaw : JVal :=
  .obj [("data", .arr [.obj [("priceUsd", .str "1.5"),
                             ("time", .num 1),
                             ("date", .str "not-a-date")]]),
        ("timestamp", .num 0)]

/-- `tsBadRaw` after normalization, before coercion. -/
def tsBadPre : DataFrame :=
  ⟨["priceUsd", "time", "date"],
   [[("priceUsd", .str "1.5"), ("time", .num 1), ("date", .str "not-a-date")]]⟩

/-- `tsBadRaw` after normalization and coercion, just before the failing
date step. -/
def tsBadNorm : DataFrame :=
  ⟨["priceUsd", "time", "date"],
   [[("priceUsd", .num (3 / 2 : ℚ)), ("time", .num 1), ("date", .str "not-a-date")]]⟩

/-- C1 counterexample: on `tsBadRaw` the temporal-normalization step fails,
yet the Clean operation does not abort with an ETLError — `transform`
returns `Ok None` — and the CSV sink is still invoked afterwards (with
`None`).  This contradicts the claim that any step failure surfaces a
single ETLError and prevents both sinks from running. -/
theorem ts_clean_abort_counterexample :
    TS.convert_iso_date_to_datetime (some tsBadNorm) "date" = none
  ∧ TS.transform tsBadRaw TS.cols_datatypes TS.cols_to_round = .ok none
  ∧ TS.script tsBadRaw "/workspace/sources/bitcoin_time_series.csv"
      = [.csvSink none "/workspace/sources/bitcoin_time_series.csv"] :=
  ⟨by with_unfolding_all rfl, by with_unfolding_all rfl, by with_unfolding_all rfl⟩

/-- C1 (amended): in the time-series Clean, only failures of the
normalization or type-coercion stage raise (and then the CSV sink cell dies
on the unassigned variable before `df_to_csv` runs); a failure in the
temporal-normalization, column-pruning, or rounding stage is caught inside
`transform`, which returns `None` instead of surfacing an ETLError, and the
CSV sink is still invoked afterwards with that `None`. -/
theorem ts_caught_step_failure_silent (raw : JVal) (path : String) :
    (∀ e, TS.transform raw TS.cols_datatypes TS.cols_to_round = .error e →
      TS.script raw path = [])
  ∧ (∀ d, TS.transform raw TS.cols_datatypes TS.cols_to_round = .ok d →
      TS.script raw path = [.csvSink d path])
  ∧ (∀ df d1, json_normalize raw "data" "." = .ok df →
      convert_cols_cat_to_num df TS.cols_datatypes = .ok d1 →
      TS.convert_iso_date_to_datetime (some d1) "date" = none →
      TS.transform raw TS.cols_datatypes TS.cols_to_round = .ok none)
  ∧ (∀ df d1 d2, json_normalize raw "data" "." = .ok df →
      convert_cols_cat_to_num df TS.cols_datatypes = .ok d1 →
      TS.convert_iso_date_to_datetime (some d1) "date" = some d2 →
      TS.drop_columns (some d2) ["time"] = none →
      TS.transform raw TS.cols_datatypes TS.cols_to_round = .ok none)
  ∧ (∀ df d1 d2 d3, json_normalize raw "data" "." = .ok df →
      convert_cols_cat_to_num df TS.cols_datatypes = .ok d1 →
      TS.convert_iso_date_to_datetime (some d1) "date" = some d2 →
      TS.drop_columns (some d2) ["time"] = some d3 →
      TS.round_to_two_decimal_places (some d3) TS.cols_to_round = none →
      TS.transform raw TS.cols_datatypes TS.cols_to_round = .ok none) := by
  refine ⟨fun e he => ?_, fun d hd => ?_, fun df d1 h1 h2 h3 => ?_,
    fun df d1 d2 h1 h2 h3 h4 => ?_, fun df d1 d2 d3 h1 h2 h3 h4 h5 => ?_⟩
  · simp [TS.script, he]
  · simp [TS.script, hd]
  · simp [TS.transform, h1, h2, h3, TS.drop_columns, TS.round_to_two_decimal_places]
  · simp [TS.transform, h1, h2, h3, h4, TS.round_to_two_decimal_places]
  · simp [TS.transform, h1, h2, h3, h4, h5]

/-- Witness for `ts_caught_step_failure_silent` at the concrete failing
response `tsBadRaw`. -/
theorem ts_caught_step_failure_silent_witness :
    TS.transform tsBadRaw TS.cols_datatypes TS.cols_to_round = .ok none
  ∧ TS.script tsBadRaw "out.csv" = [.csvSink none "out.csv"] := by
  have h := (ts_caught_step_failure_silent tsBadRaw "out.csv").2.2.1 tsBadPre tsBadNorm
    (by with_unfolding_all rfl) (by with_unfolding_all rfl) (by with_unfolding_all rfl)
  exact ⟨h, (ts_caught_step_failure_silent tsBadRaw "out.csv").2.1 none h⟩

/-- An HTTP oracle answering every GET with status 500 and an empty body. -/
def http500 : String → HttpResponse := fun _ => ⟨500, .null⟩

/-- C2 counterexample: on a 500 response `extract` does fail, but the
exception it raises is the `UnboundLocalError` from the trailing
`return raw_data_json`, not a FetchError carrying the status code; the
status reaches the operator only through a printed diagnostic. -/
theorem extract_fetch_error_counterexample :
    (extract AL.assetsUrl http500).result = .error .unboundLocalError
  ∧ (extract AL.assetsUrl http500).result ≠ .error (.fetchError 500)
  ∧ (extract AL.assetsUrl http500).printed = ["Error. Non-success status code: 500"] := by
  have h1 : (extract AL.assetsUrl http500).result = .error .unboundLocalError := by
    with_unfolding_all rfl
  exact ⟨h1, by rw [h1]; simp, by with_unfolding_all rfl⟩

/-- C2 (amended): `extract` performs exactly one GET; on status 200 it
returns the JSON-decoded body with nothing printed; on any non-200 status
it prints a diagnostic naming the status code and fails by raising
`UnboundLocalError` — an error carrying no status — returning no partial
result; in the asset-listing run such a failure stops the script before any
Table, CSV sink, or database activity. -/
theorem extract_one_get_and_failure (url : String) (http : String → HttpResponse) :
    (extract url http).requests = [url]
  ∧ ((http url).status = 200 →
      extract url http = ⟨[url], [], .ok (http url).body⟩)
  ∧ ((http url).status ≠ 200 →
      extract url http =
        ⟨[url], ["Error. Non-success status code: " ++ toString (http url).status],
         .error .unboundLocalError⟩)
  ∧ (∀ resp env path, resp.status ≠ 200 →
      AL.script resp env path = ([.httpGet AL.assetsUrl], .error .unboundLocalError)) := by
  refine ⟨?_, fun h200 => ?_, fun hbad => ?_, fun resp env path hbad => ?_⟩
  · by_cases h : (http url).status = 200 <;> simp [extract, h]
  · simp [extract, h200]
  · simp [extract, hbad]
  · simp [AL.script, extract, hbad]

/-- Witness for `extract_one_get_and_failure` at the all-500 oracle. -/
theorem extract_one_get_and_failure_witness :
    (extract AL.assetsUrl http500).requests = [AL.assetsUrl]
  ∧ extract AL.assetsUrl http500 =
      ⟨[AL.assetsUrl], ["Error. Non-success status code: 500"],
       .error .unboundLocalError⟩
  ∧ AL.script ⟨500, .null⟩ (fun _ => some "x") "/workspace/sources/crypto_mkt.csv"
      = ([.httpGet AL.assetsUrl], .error .unboundLocalError) := by
  have h := extract_one_get_and_failure AL.assetsUrl http500
  exact ⟨h.1, h.2.2.1 (by decide),
    h.2.2.2 ⟨500, .null⟩ (fun _ => some "x") "/workspace/sources/crypto_mkt.csv" (by decide)⟩

/-- A one-column table used as the concrete CSV payload. -/
def csvDf : DataFrame := ⟨["a"], [[("a", .num 1)]]⟩

/-- A distinct table standing for the file's previous contents. -/
def csvOldDf : DataFrame := ⟨["b"], [[("b", .num 2)]]⟩

/-- C8 counterexample: a permission-denied write makes `df_to_csv` print a
diagnostic and return normally — no IOError (nor any exception) escapes,
contradicting the claim that writeCsv fails with an IOError on any write
failure. -/
theorem df_to_csv_failure_counterexample :
    (df_to_csv (some csvDf) .permissionDenied (.complete csvOldDf) "out.csv").raised = none
  ∧ (df_to_csv (some csvDf) .permissionDenied (.complete csvOldDf) "out.csv").raised
      ≠ some PyErr.ioError
  ∧ (df_to_csv (some csvDf) .permissionDenied (.complete csvOldDf) "out.csv").printed
      = ["An error occurred while saving the DataFrame to CSV: Permission denied"] := by
  refine ⟨by with_unfolding_all rfl, ?_, by with_unfolding_all rfl⟩
  have h1 : (df_to_csv (some csvDf) .permissionDenied (.complete csvOldDf) "out.csv").raised
      = none := by with_unfolding_all rfl
  rw [h1]; simp

/-- C8 (amended): `df_to_csv` never lets an exception escape — on any write
failure (permission denied, missing directory, disk full) it catches the
error, prints a diagnostic, and returns normally; on success it
unconditionally overwrites whatever file was at the path. -/
theorem df_to_csv_swallows_failures (df : DataFrame) (disk : WriteOutcome)
    (old : FileState) (p : String) :
    (df_to_csv (some df) disk old p).raised = none
  ∧ (disk = .writeOk →
      df_to_csv (some df) disk old p =
        ⟨.complete df, ["DataFrame successfully saved to " ++ p], none⟩)
  ∧ (disk ≠ .writeOk →
      (df_to_csv (some df) disk old p).printed =
        ["An error occurred while saving the DataFrame to CSV: " ++ writeFailureMsg disk])
  ∧ (df_to_csv none disk old p).raised = none := by
  refine ⟨?_, fun hok => ?_, fun hbad => ?_, by simp [df_to_csv]⟩
  · cases disk <;> simp [df_to_csv]
  · subst hok; simp [df_to_csv]
  · cases disk with
    | writeOk => exact absurd rfl hbad
    | permissionDenied => rfl
    | missingDirectory => rfl
    | diskFull => rfl

/-- Witness for `df_to_csv_swallows_failures`: a successful write overwrites
the old file, and a disk-full write prints its diagnostic without
raising. -/
theorem df_to_csv_swallows_failures_witness :
    (df_to_csv (some csvDf) .diskFull (.complete csvOldDf) "o.csv").raised = none
  ∧ df_to_csv (some csvDf) .writeOk (.complete csvOldDf) "o.csv" =
      ⟨.complete csvDf, ["DataFrame successfully saved to o.csv"], none⟩
  ∧ (df_to_csv (some csvDf) .diskFull (.complete csvOldDf) "o.csv").printed =
      ["An error occurred while saving the DataFrame to CSV: No space left on device"] := by
  refine ⟨(df_to_csv_swallows_failures csvDf .diskFull (.complete csvOldDf) "o.csv").1, ?_, ?_⟩
  · have h := (df_to_csv_swallows_failures csvDf .writeOk (.complete csvOldDf) "o.csv").2.1 rfl
    simpa using h
  · have h := (df_to_csv_swallows_failures csvDf .diskFull (.complete csvOldDf) "o.csv").2.2.1
      (by simp)
    simpa [writeFailureMsg] using h

/-- A well-formed asset-listing record (the absent `rank` and
`volumeUsd24Hr` columns are silently skipped by the coercion loop). -/
def alGoodRaw : JVal :=
  .obj [("data", .arr [.obj [("id", .str "bitcoin"),
                             ("supply", .str "19710390.5"),
                             ("maxSupply", .null),
                             ("marketCapUsd", .str "1367663000000.123"),
                             ("priceUsd", .str "69387.907"),
                             ("changePercent24Hr", .str "-0.335"),
                             ("vwap24Hr", .str "69670.5"),
                             ("explorer", .null)]]),
        ("timestamp", .num 1)]

/-- An environment with `POSTGRES_PASSWORD` unset and every other setting
present. -/
def env0 : String → Option String :=
  fun k => if k = "POSTGRES_PASSWORD" then none else some "x"

/-- C9 counterexample: with a required database setting missing from the
start, the run still issues its HTTP GET and writes the CSV before the
configuration check raises — the fatal configuration error is NOT raised
before network activity begins. -/
theorem config_check_not_before_network_counterexample :
    AL.script ⟨200, alGoodRaw⟩ env0 "/workspace/sources/crypto_mkt.csv" =
      ([.httpGet AL.assetsUrl, .csvWrite "/workspace/sources/crypto_mkt.csv",
        .configCheck],
       .error (.valueError
         "One or more environment variables for the database connection are not set")) := by
  with_unfolding_all rfl

/-- C9 (amended): if any of the four database settings is unset (or empty),
the run raises a fatal error at the configuration check and performs no
database activity — no engine creation, no table replace — but the check
happens only in the Load phase: whenever it is reached, the HTTP GET and
the CSV write have already run before it. -/
theorem config_error_before_db_after_network (resp : HttpResponse)
    (env : String → Option String) (p : String)
    (hmiss : (AL.truthy (env "POSTGRES_USER") && AL.truthy (env "POSTGRES_PASSWORD")
      && AL.truthy (env "POSTGRES_HOST") && AL.truthy (env "POSTGRES_DB")) = false) :
    AL.Event.createEngine ∉ (AL.script resp env p).1
  ∧ AL.Event.dbReplace "crypto_mkt" ∉ (AL.script resp env p).1
  ∧ (∃ e, (AL.script resp env p).2 = .error e)
  ∧ (AL.Event.configCheck ∈ (AL.script resp env p).1 →
      (AL.script resp env p).1 = [.httpGet AL.assetsUrl, .csvWrite p, .configCheck]) := by
  by_cases hs : resp.status = 200
  · rcases h : AL.transform resp.body with e | ct
    · simp [AL.script, extract, hs, h]
    · simp [AL.script, extract, hs, h, hmiss]
  · simp [AL.script, extract, hs]

/-- Witness for `config_error_before_db_after_network` at the concrete
missing-password environment. -/
theorem config_error_before_db_after_network_witness :
    AL.Event.createEngine ∉ (AL.script ⟨200, alGoodRaw⟩ env0 "out.csv").1
  ∧ AL.Event.dbReplace "crypto_mkt" ∉ (AL.script ⟨200, alGoodRaw⟩ env0 "out.csv").1
  ∧ (∃ e, (AL.script ⟨200, alGoodRaw⟩ env0 "out.csv").2 = .error e)
  ∧ (AL.Event.configCheck ∈ (AL.script ⟨200, alGoodRaw⟩ env0 "out.csv").1 →
      (AL.script ⟨200, alGoodRaw⟩ env0 "out.csv").1 =
        [.httpGet AL.assetsUrl, .csvWrite "out.csv", .configCheck]) :=
  config_error_before_db_after_network ⟨200, alGoodRaw⟩ env0 "out.csv"
    (by with_unfolding_all rfl)

theorem forall₂_of_map {α β : Type} (g : α → β) (R : α → β → Prop)
    (l : List α) (h : ∀ a ∈ l, R a (g a)) : List.Forall₂ R l (l.map g) := by
  induction l with
  | nil => simp
  | cons a t ih =>
    simp only [List.map_cons, List.forall₂_cons]
    exact ⟨h a (List.mem_cons_self a t), ih fun x hx => h x (List.mem_cons_of_mem a hx)⟩

theorem forall₂_trans_comp {α β γ : Type} {R : α → β → Prop} {S : β → γ → Prop}
    {T : α → γ → Prop} (hc : ∀ a b c, R a b → S b c → T a c) :
    ∀ {l1 : List α} {l2 : List β} {l3 : List γ},
      List.Forall₂ R l1 l2 → List.Forall₂ S l2 l3 → List.Forall₂ T l1 l3 := by
  intro l1 l2 l3 h1 h2
  induction h1 generalizing l3 with
  | nil => cases h2; exact .nil
  | cons hab _ ih => cases h2 with
    | cons hbc h2tl => exact .cons (hc _ _ _ hab hbc) (ih h2tl)

theorem forall₂_mem_right {α β : Type} {R : α → β → Prop} :
    ∀ {l : List α} {l' : List β}, List.Forall₂ R l l' → ∀ b ∈ l', ∃ a ∈ l, R a b := by
  intro l l' h
  induction h with
  | nil => simp
  | cons hab _ ih =>
    intro b hb
    rcases List.mem_cons.mp hb with rfl | hb
    · exact ⟨_, List.mem_cons_self _ _, hab⟩
    · rcases ih b hb with ⟨a, ha, har⟩
      exact ⟨a, List.mem_cons_of_mem _ ha, har⟩

theorem astypeCol_not_mem (ty : PType) (c : String) (df : DataFrame)
    (h : c ∉ df.cols) : astypeCol ty c df = .ok df := by
  simp [astypeCol, h]

theorem astypeCol_mem_ok (ty : PType) (c : String) (df df' : DataFrame)
    (hc : c ∈ df.cols) (h : astypeCol ty c df = .ok df') :
    df'.cols = df.cols
    ∧ List.Forall₂ (List.Forall₂ (fun kv kv' => kv'.1 = kv.1
        ∧ (kv.1 ≠ c → kv'.2 = kv.2)
        ∧ (kv.1 = c → astypeCell ty kv.2 = some kv'.2))) df.rows df'.rows := by
  unfold astypeCol at h
  rw [if_pos hc] at h
  by_cases hall : (df.rows.all (fun r => r.all
      (fun kv => kv.1 != c || (astypeCell ty kv.2).isSome))) = true
  · rw [if_pos hall] at h
    have hd : df' = ⟨df.cols, df.rows.map (rowSet c (fun v => (astypeCell ty v).getD v))⟩ := by
      cases h; rfl
    subst hd
    refine ⟨rfl, ?_⟩
    apply forall₂_of_map
    intro r hr
    apply forall₂_of_map
    intro kv hkv
    have hrow := (List.all_eq_true.mp hall) r hr
    have hcell := (List.all_eq_true.mp hrow) kv hkv
    by_cases hk : kv.1 = c
    · have hsome : (astypeCell ty kv.2).isSome = true := by
        rcases Bool.or_eq_true_iff.mp hcell with hne | hs
        · exact absurd hk (bne_iff_ne.mp hne)
        · exact hs
      rcases Option.isSome_iff_exists.mp hsome with ⟨w, hw⟩
      refine ⟨?_, fun hne => absurd hk hne, fun _ => ?_⟩
      · simp [rowSet, hk]
      · simp only [rowSet, hk, if_pos rfl] at *
        simp [hw]
    · refine ⟨?_, fun _ => ?_, fun he => absurd he hk⟩
      · simp [rowSet, hk]
      · simp [rowSet, hk]
  · rw [if_neg hall] at h
    exact absurd h (by simp)

theorem convert_rel :
    ∀ (spec : List (String × PType)), (spec.map Prod.fst).Nodup →
    ∀ df df', convert_cols_cat_to_num df spec = .ok df' →
    df'.cols = df.cols
    ∧ List.Forall₂ (List.Forall₂ (convCellRel spec df.cols)) df.rows df'.rows := by
  intro spec
  induction spec with
  | nil =>
    intro _ df df' h
    have hd : df' = df := by
      simp only [convert_cols_cat_to_num, List.foldlM_nil] at h
      cases h; rfl
    subst hd
    refine ⟨rfl, List.forall₂_same.mpr fun r _ => List.forall₂_same.mpr fun kv _ => ?_⟩
    exact ⟨rfl, fun _ => rfl, fun ty hty => absurd hty (by simp)⟩
  | cons p rest ih =>
    intro hnd df df' h
    obtain ⟨c0, ty0⟩ := p
    rw [List.map_cons] at hnd
    obtain ⟨hc0, hndr⟩ := List.nodup_cons.mp hnd
    unfold convert_cols_cat_to_num at h
    rw [List.foldlM_cons] at h
    rcases hstep : astypeCol ty0 c0 df with e | d1
    · rw [hstep] at h; simp at h
    · rw [hstep] at h
      simp only [exceptOkBind] at h
      have hrest : convert_cols_cat_to_num d1 rest = .ok df' := h
      by_cases hmem : c0 ∈ df.cols
      · obtain ⟨hcols1, hrel1⟩ := astypeCol_mem_ok ty0 c0 df d1 hmem hstep
        obtain ⟨hcols2, hrel2⟩ := ih hndr d1 df' hrest
        rw [hcols1] at hrel2
        refine ⟨by rw [hcols2, hcols1], ?_⟩
        have hcell : ∀ (kv kv' kv'' : String × JVal),
            (kv'.1 = kv.1 ∧ (kv.1 ≠ c0 → kv'.2 = kv.2)
              ∧ (kv.1 = c0 → astypeCell ty0 kv.2 = some kv'.2)) →
            convCellRel rest df.cols kv' kv'' →
            convCellRel ((c0, ty0) :: rest) df.cols kv kv'' := by
          intro kv kv' kv'' h1 h2
          obtain ⟨hk1, hu1, ha1⟩ := h1
          obtain ⟨hk2, hu2, ha2⟩ := h2
          refine ⟨hk2.trans hk1, ?_, ?_⟩
          · rintro (hout | hout)
            · rw [List.map_cons] at hout
              have hne : kv.1 ≠ c0 := fun he => hout (he ▸ List.mem_cons_self _ _)
              have hrout : kv.1 ∉ rest.map Prod.fst :=
                fun hin => hout (List.mem_cons_of_mem _ hin)
              have e1 : kv'.2 = kv.2 := hu1 hne
              have e2 : kv''.2 = kv'.2 := hu2 (Or.inl (by rw [hk1]; exact hrout))
              rw [e2, e1]
            · have hne : kv.1 ≠ c0 := fun he => hout (he ▸ hmem)
              have e1 : kv'.2 = kv.2 := hu1 hne
              have e2 : kv''.2 = kv'.2 := hu2 (Or.inr (by rw [hk1]; exact hout))
              rw [e2, e1]
          · intro ty hty hcols
            rcases List.mem_cons.mp hty with heq | hin
            · obtain ⟨hkc, htc⟩ := Prod.mk.injEq .. ▸ heq
              have hcast : astypeCell ty0 kv.2 = some kv'.2 := ha1 hkc
              have e2 : kv''.2 = kv'.2 := by
                refine hu2 (Or.inl ?_)
                rw [hk1, hkc]; exact hc0
              rw [htc, e2]; exact hcast
            · have hkr : kv.1 ∈ rest.map Prod.fst :=
                List.mem_map.mpr ⟨(kv.1, ty), hin, rfl⟩
              have hne : kv.1 ≠ c0 := fun he => hc0 (he ▸ hkr)
              have e1 : kv'.2 = kv.2 := hu1 hne
              have hcast : astypeCell ty kv'.2 = some kv''.2 :=
                ha2 ty (by rw [hk1]; exact hin) (by rw [hk1]; exact hcols)
              rw [e1] at hcast
              exact hcast
        refine forall₂_trans_comp ?_ hrel1 hrel2
        intro r1 r2 r3 h12 h23
        exact forall₂_trans_comp hcell h12 h23
      · have hd1 : d1 = df := by
          have hn := astypeCol_not_mem ty0 c0 df hmem
          rw [hn] at hstep; cases hstep; rfl
        rw [hd1] at hrest
        obtain ⟨hcols2, hrel2⟩ := ih hndr df df' hrest
        refine ⟨hcols2, ?_⟩
        refine List.Forall₂.imp (fun r r' hr => List.Forall₂.imp ?_ hr) hrel2
        intro kv kv' hkv
        obtain ⟨hk, hu, ha⟩ := hkv
        refine ⟨hk, ?_, ?_⟩
        · rintro (hout | hout)
          · refine hu (Or.inl fun hin => hout ?_)
            rw [List.map_cons]
            exact List.mem_cons_of_mem _ hin
          · exact hu (Or.inr hout)
        · intro ty hty hcols
          rcases List.mem_cons.mp hty with heq | hin
          · obtain ⟨hkc, _⟩ := Prod.mk.injEq .. ▸ heq
            exact absurd (hkc ▸ hcols) hmem
          · exact ha ty hin hcols

theorem forall₂_mem_left {α β : Type} {R : α → β → Prop} :
    ∀ {l : List α} {l' : List β}, List.Forall₂ R l l' → ∀ a ∈ l, ∃ b ∈ l', R a b := by
  intro l l' h
  induction h with
  | nil => simp
  | cons hab _ ih =>
    intro a ha
    rcases List.mem_cons.mp ha with rfl | ha
    · exact ⟨_, List.mem_cons_self _ _, hab⟩
    · rcases ih a ha with ⟨b, hb, hbr⟩
      exact ⟨b, List.mem_cons_of_mem _ hb, hbr⟩

theorem list_map_id_of {α : Type} (g : α → α) :
    ∀ l : List α, (∀ a ∈ l, g a = a) → l.map g = l := by
  intro l h
  induction l with
  | nil => rfl
  | cons a t ih =>
    rw [List.map_cons, h a (List.mem_cons_self a t),
      ih fun x hx => h x (List.mem_cons_of_mem a hx)]

theorem rowSet_id (c : String) (f : JVal → JVal) (r : List (String × JVal))
    (h : ∀ kv ∈ r, kv.1 = c → f kv.2 = kv.2) : rowSet c f r = r := by
  unfold rowSet
  apply list_map_id_of
  intro kv hkv
  by_cases hk : kv.1 = c
  · rw [if_pos hk, h kv hkv hk]
  · rw [if_neg hk]

theorem rhe_intCast (n : ℤ) : rhe (n : ℚ) = n := by
  unfold rhe
  rw [Int.floor_intCast]
  norm_num

theorem round2_int_div (n : ℤ) : round2 ((n : ℚ) / 100) = (n : ℚ) / 100 := by
  unfold round2
  have h : ((n : ℚ) / 100) * 100 = (n : ℚ) := by field_simp
  rw [h, rhe_intCast]

theorem round2_idem (q : ℚ) : round2 (round2 q) = round2 q := by
  have h : round2 q = ((rhe (q * 100) : ℤ) : ℚ) / 100 := rfl
  rw [h, round2_int_div]

theorem round2_zero : round2 0 = 0 := by
  have h : (0 : ℚ) = ((0 : ℤ) : ℚ) / 100 := by norm_num
  rw [h, round2_int_div]

theorem roundCellTotal_idem (v : JVal) :
    roundCellTotal (roundCellTotal v) = roundCellTotal v := by
  cases v <;> simp [roundCellTotal, round2_idem]

theorem roundableCell_roundCellTotal (v : JVal) :
    roundableCell (roundCellTotal v) = roundableCell v := by
  cases v <;> simp [roundCellTotal, roundableCell]

theorem isNull_roundCellTotal (v : JVal) :
    (roundCellTotal v).isNull = v.isNull := by
  cases v <;> simp [roundCellTotal, JVal.isNull]

theorem astypeCell_idem (ty : PType) (v w : JVal)
    (h : astypeCell ty v = some w) : astypeCell ty w = some w := by
  cases ty with
  | float =>
    cases v with
    | str s =>
      rw [astypeCell, Option.map_eq_some'] at h
      rcases h with ⟨q, _, rfl⟩
      rfl
    | num q => cases h; rfl
    | int n => cases h; rfl
    | null => cases h; rfl
    | date y m d => cases h
    | arr xs => cases h
    | obj fs => cases h
  | int =>
    cases v with
    | str s =>
      rw [astypeCell, Option.map_eq_some'] at h
      rcases h with ⟨n, _, rfl⟩
      rfl
    | num q => cases h; rfl
    | int n => cases h; rfl
    | null => cases h
    | date y m d => cases h
    | arr xs => cases h
    | obj fs => cases h

theorem astypeCell_float_fixed_null (v : JVal)
    (h : astypeCell .float v = some v) : v.isNull = true → v = .null := by
  cases v <;> simp [JVal.isNull]

theorem astypeCell_float_roundCellTotal (v : JVal)
    (h : astypeCell .float v = some v) :
    astypeCell .float (roundCellTotal v) = some (roundCellTotal v) := by
  cases v with
  | num q => rfl
  | null => rfl
  | str s =>
    rw [astypeCell, Option.map_eq_some'] at h
    rcases h with ⟨q, _, hq⟩
    cases hq
  | int n => cases h
  | date y m d => cases h
  | arr xs => cases h
  | obj fs => cases h

theorem astypeCol_error (ty : PType) (c : String) (df : DataFrame) (e : PyErr)
    (h : astypeCol ty c df = .error e) : e = .coercion c := by
  unfold astypeCol at h
  by_cases hc : c ∈ df.cols
  · rw [if_pos hc] at h
    by_cases hall : (df.rows.all (fun r => r.all
        (fun kv => kv.1 != c || (astypeCell ty kv.2).isSome))) = true
    · rw [if_pos hall] at h; cases h
    · rw [if_neg hall] at h; cases h; rfl
  · rw [if_neg hc] at h; cases h

theorem convert_error_coercion :
    ∀ (spec : List (String × PType)) (df : DataFrame) (e : PyErr),
      convert_cols_cat_to_num df spec = .error e → ∃ c, e = .coercion c := by
  intro spec
  induction spec with
  | nil =>
    intro df e h
    simp [convert_cols_cat_to_num, List.foldlM_nil] at h
  | cons p rest ih =>
    intro df e h
    unfold convert_cols_cat_to_num at h
    rw [List.foldlM_cons] at h
    rcases hstep : astypeCol p.2 p.1 df with e0 | d1
    · rw [hstep] at h
      simp only [exceptErrorBind] at h
      obtain rfl : e0 = e := Except.error.inj h
      exact ⟨p.1, astypeCol_error p.2 p.1 df e0 hstep⟩
    · rw [hstep] at h
      simp only [exceptOkBind] at h
      exact ih d1 e h

theorem astypeCol_id (ty : PType) (c : String) (df : DataFrame)
    (h : ∀ r ∈ df.rows, ∀ kv ∈ r, kv.1 = c → astypeCell ty kv.2 = some kv.2) :
    astypeCol ty c df = .ok df := by
  by_cases hmem : c ∈ df.cols
  · unfold astypeCol
    rw [if_pos hmem, if_pos ?hall]
    case hall =>
      refine List.all_eq_true.mpr fun r hr => List.all_eq_true.mpr fun kv hkv => ?_
      by_cases hk : kv.1 = c
      · simp [h r hr kv hkv hk]
      · simp [bne_iff_ne.mpr hk]
    have hrows : df.rows.map (rowSet c (fun v => (astypeCell ty v).getD v)) = df.rows := by
      apply list_map_id_of
      intro r hr
      apply rowSet_id
      intro kv hkv hk
      rw [h r hr kv hkv hk]
      rfl
    rw [hrows]
  · exact astypeCol_not_mem ty c df hmem

theorem convert_id :
    ∀ (spec : List (String × PType)) (df : DataFrame),
    (∀ p ∈ spec, p.1 ∉ df.cols ∨
      (∀ r ∈ df.rows, ∀ kv ∈ r, kv.1 = p.1 → astypeCell p.2 kv.2 = some kv.2)) →
    convert_cols_cat_to_num df spec = .ok df := by
  intro spec
  induction spec with
  | nil => intro df _; simp [convert_cols_cat_to_num, List.foldlM_nil]
  | cons p rest ih =>
    intro df h
    unfold convert_cols_cat_to_num
    rw [List.foldlM_cons]
    have hstep : astypeCol p.2 p.1 df = .ok df := by
      rcases h p (List.mem_cons_self p rest) with hout | hfix
      · exact astypeCol_not_mem p.2 p.1 df hout
      · exact astypeCol_id p.2 p.1 df hfix
    rw [hstep]
    simp only [exceptOkBind]
    exact ih df fun q hq => h q (List.mem_cons_of_mem p hq)

theorem fillnaCol_ok (c : String) (fill : JVal) (df df' : DataFrame)
    (h : fillnaCol c fill df = .ok df') :
    c ∈ df.cols ∧ df'.cols = df.cols
    ∧ df'.rows = df.rows.map (rowSet c (fun v => if v.isNull then fill else v)) := by
  unfold fillnaCol at h
  by_cases hc : c ∈ df.cols
  · rw [if_pos hc] at h
    cases h
    exact ⟨hc, rfl, rfl⟩
  · rw [if_neg hc] at h
    cases h

theorem roundCols_ok (cs : List String) (df df' : DataFrame)
    (h : roundCols cs df = .ok df') :
    (∀ c ∈ cs, c ∈ df.cols)
  ∧ (∀ c ∈ cs, colRoundable c df = true)
  ∧ df'.cols = df.cols
  ∧ df'.rows = df.rows.map (fun r =>
      r.map (fun kv => if kv.1 ∈ cs then (kv.1, roundCellTotal kv.2) else kv)) := by
  unfold roundCols at h
  rcases hf1 : cs.find? (fun c => !df.cols.contains c) with _ | c1
  · rw [hf1] at h
    rcases hf2 : cs.find? (fun c => !colRoundable c df) with _ | c2
    · rw [hf2] at h
      cases h
      refine ⟨?_, ?_, rfl, rfl⟩
      · intro c hc
        have := List.find?_eq_none.mp hf1 c hc
        simpa [List.contains, List.elem_iff] using this
      · intro c hc
        have := List.find?_eq_none.mp hf2 c hc
        simpa using this
    · rw [hf2] at h; cases h
  · rw [hf1] at h; cases h

theorem roundCols_id (cs : List String) (df : DataFrame)
    (hmem : ∀ c ∈ cs, c ∈ df.cols)
    (hcells : ∀ r ∈ df.rows, ∀ kv ∈ r, kv.1 ∈ cs →
      roundableCell kv.2 = true ∧ roundCellTotal kv.2 = kv.2) :
    roundCols cs df = .ok df := by
  unfold roundCols
  have hf1 : cs.find? (fun c => !df.cols.contains c) = none := by
    refine List.find?_eq_none.mpr fun c hc => ?_
    simp [List.contains, List.elem_iff, hmem c hc]
  have hf2 : cs.find? (fun c => !colRoundable c df) = none := by
    refine List.find?_eq_none.mpr fun c hc => ?_
    have : colRoundable c df = true := by
      refine List.all_eq_true.mpr fun r hr => List.all_eq_true.mpr fun kv hkv => ?_
      by_cases hk : kv.1 = c
      · simp [(hcells r hr kv hkv (hk ▸ hc)).1]
      · simp [bne_iff_ne.mpr hk]
    simp [this]
  rw [hf1, hf2]
  have hrows : df.rows.map (fun r =>
      r.map (fun kv => if kv.1 ∈ cs then (kv.1, roundCellTotal kv.2) else kv)) = df.rows := by
    apply list_map_id_of
    intro r hr
    apply list_map_id_of
    intro kv hkv
    by_cases hk : kv.1 ∈ cs
    · rw [if_pos hk, (hcells r hr kv hkv hk).2]
    · rw [if_neg hk]
  rw [hrows]

/-- C10: the coercion loop casts only the dtype-dictionary columns that are
present in the table; an entry naming an absent column is silently skipped
(the whole call behaves as if the entry were not there, raising no error),
and every cell outside the dictionary columns is left unchanged. -/
theorem coercion_casts_only_present_columns (spec : List (String × PType))
    (df : DataFrame) :
    (∀ c ty, c ∉ df.cols →
      convert_cols_cat_to_num df ((c, ty) :: spec) = convert_cols_cat_to_num df spec)
  ∧ ((spec.map Prod.fst).Nodup → ∀ df',
      convert_cols_cat_to_num df spec = .ok df' →
      df'.cols = df.cols
      ∧ List.Forall₂ (List.Forall₂ (fun kv kv' => kv'.1 = kv.1 ∧
          ((kv.1 ∉ spec.map Prod.fst ∨ kv.1 ∉ df.cols) → kv'.2 = kv.2)))
          df.rows df'.rows) := by
  constructor
  · intro c ty hc
    have hskip : astypeCol ty c df = .ok df := astypeCol_not_mem ty c df hc
    have h2 : convert_cols_cat_to_num df ((c, ty) :: spec)
        = List.foldlM (fun d p => astypeCol p.2 p.1 d) df spec := by
      unfold convert_cols_cat_to_num
      rw [List.foldlM_cons]
      simp [hskip]
    rw [h2]
    rfl
  · intro hnd df' hok
    obtain ⟨hcols, hrel⟩ := convert_rel spec hnd df df' hok
    exact ⟨hcols, List.Forall₂.imp
      (fun r r' hr => hr.imp fun kv kv' hkv => ⟨hkv.1, hkv.2.1⟩) hrel⟩

/-- A dtype dictionary with one absent column, for the C10 witness. -/
def c10spec : List (String × PType) := [("missing", .float), ("a", .float)]

/-- A two-column table for the C10 witness. -/
def c10df : DataFrame := ⟨["a", "b"], [[("a", .str "1.5"), ("b", .str "keep")]]⟩

/-- `c10df` after coercion under `c10spec`. -/
def c10out : DataFrame := ⟨["a", "b"], [[("a", .num (3 / 2 : ℚ)), ("b", .str "keep")]]⟩

/-- Witness for `coercion_casts_only_present_columns` on `c10df`. -/
theorem coercion_casts_only_present_columns_witness :
    convert_cols_cat_to_num c10df c10spec
      = convert_cols_cat_to_num c10df [("a", PType.float)]
  ∧ (c10out.cols = c10df.cols
      ∧ List.Forall₂ (List.Forall₂ (fun kv kv' => kv'.1 = kv.1 ∧
          ((kv.1 ∉ c10spec.map Prod.fst ∨ kv.1 ∉ c10df.cols) → kv'.2 = kv.2)))
          c10df.rows c10out.rows) := by
  constructor
  · exact (coercion_casts_only_present_columns [("a", PType.float)] c10df).1
      "missing" .float (by with_unfolding_all decide)
  · exact (coercion_casts_only_present_columns c10spec c10df).2
      (by with_unfolding_all decide) c10out (by with_unfolding_all rfl)

/-- C6: feeding `clean` a table that has a non-numeric string in one of the
`roundSpec` columns makes the type-coercion step raise a CoercionError —
never a rounding error — because every `cols_to_round` column is also a
float column of `cols_datatypes` and the coercion loop runs first. -/
theorem clean_bad_round_cell_is_coercion_error (df : DataFrame) (c s : String)
    (r : List (String × JVal))
    (hc : c ∈ AL.cols_to_round) (hcol : c ∈ df.cols) (hr : r ∈ df.rows)
    (hcell : (c, JVal.str s) ∈ r) (hbad : parseFloat s = none) :
    ∃ c1, AL.cleanTable df = .error (.coercion c1) := by
  have hspec : (c, PType.float) ∈ AL.cols_datatypes := by
    have hall : ∀ x ∈ AL.cols_to_round, (x, PType.float) ∈ AL.cols_datatypes := by
      with_unfolding_all decide
    exact hall c hc
  have hbadcell : astypeCell PType.float (JVal.str s) = none := by
    simp [astypeCell, hbad]
  rcases hconv : convert_cols_cat_to_num df AL.cols_datatypes with e | d1
  · obtain ⟨c1, rfl⟩ := convert_error_coercion AL.cols_datatypes df e hconv
    refine ⟨c1, ?_⟩
    unfold AL.cleanTable
    rw [hconv]
    simp
  · exfalso
    have hnd : (AL.cols_datatypes.map Prod.fst).Nodup := by with_unfolding_all decide
    obtain ⟨hcols, hrel⟩ := convert_rel AL.cols_datatypes hnd df d1 hconv
    obtain ⟨r1, hr1, hrowrel⟩ := forall₂_mem_left hrel r hr
    obtain ⟨kv1, hkv1, hcellrel⟩ := forall₂_mem_left hrowrel (c, JVal.str s) hcell
    have hcast := hcellrel.2.2 PType.float hspec hcol
    rw [hbadcell] at hcast
    cases hcast

/-- A one-row table with a non-numeric `priceUsd`, for the C6 witness. -/
def c6df : DataFrame := ⟨["priceUsd"], [[("priceUsd", .str "sixty-nine")]]⟩

/-- Witness for `clean_bad_round_cell_is_coercion_error` on `c6df`. -/
theorem clean_bad_round_cell_is_coercion_error_witness :
    ∃ c1, AL.cleanTable c6df = .error (.coercion c1) :=
  clean_bad_round_cell_is_coercion_error c6df "priceUsd" "sixty-nine"
    [("priceUsd", JVal.str "sixty-nine")]
    (by with_unfolding_all decide) (by with_unfolding_all decide)
    (List.mem_singleton.mpr rfl) (List.mem_singleton.mpr rfl)
    (by with_unfolding_all rfl)

theorem isNull_eq_null (v : JVal) (h : v.isNull = true) : v = .null := by
  cases v <;> simp [JVal.isNull] at h ⊢

/-- C3: after the asset-listing clean succeeds, the `maxSupply` and
`explorer` columns of the CleanedTable contain no nulls, with every null
`maxSupply` cell replaced by the number 0 and every null `explorer` cell
replaced by the sentinel string "not available" (positionally, row by
row). -/
theorem clean_null_substitution (df ct : DataFrame)
    (h : AL.cleanTable df = .ok ct) :
    (∀ r ∈ ct.rows, ∀ v : JVal, ("maxSupply", v) ∈ r → v.isNull = false)
  ∧ (∀ r ∈ ct.rows, ∀ v : JVal, ("explorer", v) ∈ r → v.isNull = false)
  ∧ List.Forall₂ (List.Forall₂ (fun kv kv' : String × JVal => kv'.1 = kv.1
      ∧ (kv.1 = "maxSupply" → kv.2.isNull = true → kv'.2 = .num 0)
      ∧ (kv.1 = "explorer" → kv.2.isNull = true → kv'.2 = .str "not available")))
      df.rows ct.rows := by
  unfold AL.cleanTable at h
  rcases h1 : convert_cols_cat_to_num df AL.cols_datatypes with e | d1 <;> rw [h1] at h
  · simp at h
  simp only [exceptOkBind] at h
  rcases h2 : fillnaCol "maxSupply" (.num 0) d1 with e | d2 <;> rw [h2] at h
  · simp at h
  simp only [exceptOkBind] at h
  rcases h3 : fillnaCol "explorer" (.str "not available") d2 with e | d3 <;> rw [h3] at h
  · simp at h
  simp only [exceptOkBind] at h
  have hnd : (AL.cols_datatypes.map Prod.fst).Nodup := by with_unfolding_all decide
  obtain ⟨hc1, hrel1⟩ := convert_rel AL.cols_datatypes hnd df d1 h1
  obtain ⟨hm2, hc2, hrows2⟩ := fillnaCol_ok "maxSupply" (.num 0) d1 d2 h2
  obtain ⟨hm3, hc3, hrows3⟩ := fillnaCol_ok "explorer" (.str "not available") d2 d3 h3
  obtain ⟨hmem4, hrnd4, hc4, hrows4⟩ := roundCols_ok AL.cols_to_round d3 ct h
  have hmSdf : "maxSupply" ∈ df.cols := hc1 ▸ hm2
  have hmSspec : ("maxSupply", PType.float) ∈ AL.cols_datatypes := by
    with_unfolding_all decide
  have hexpKeys : "explorer" ∉ AL.cols_datatypes.map Prod.fst := by
    with_unfolding_all decide
  have hmScs : "maxSupply" ∈ AL.cols_to_round := by with_unfolding_all decide
  have hexpCs : "explorer" ∉ AL.cols_to_round := by with_unfolding_all decide
  -- step relation d1 → d2 (fillna maxSupply)
  have hrel2 : List.Forall₂ (List.Forall₂ (fun kv kv' : String × JVal =>
      kv'.1 = kv.1
      ∧ (kv.1 ≠ "maxSupply" → kv'.2 = kv.2)
      ∧ (kv.1 = "maxSupply" →
          kv'.2 = (if kv.2.isNull then JVal.num 0 else kv.2)))) d1.rows d2.rows := by
    rw [hrows2]
    refine forall₂_of_map _ _ _ fun r hr => forall₂_of_map _ _ _ fun kv hkv => ?_
    by_cases hk : kv.1 = "maxSupply"
    · refine ⟨by simp [rowSet, hk], fun hne => absurd hk hne, fun _ => by simp [rowSet, hk]⟩
    · exact ⟨by simp [rowSet, hk], fun _ => by simp [rowSet, hk], fun he => absurd he hk⟩
  -- step relation d2 → d3 (fillna explorer)
  have hrel3 : List.Forall₂ (List.Forall₂ (fun kv kv' : String × JVal =>
      kv'.1 = kv.1
      ∧ (kv.1 ≠ "explorer" → kv'.2 = kv.2)
      ∧ (kv.1 = "explorer" →
          kv'.2 = (if kv.2.isNull then JVal.str "not available" else kv.2)))) d2.rows d3.rows := by
    rw [hrows3]
    refine forall₂_of_map _ _ _ fun r hr => forall₂_of_map _ _ _ fun kv hkv => ?_
    by_cases hk : kv.1 = "explorer"
    · refine ⟨by simp [rowSet, hk], fun hne => absurd hk hne, fun _ => by simp [rowSet, hk]⟩
    · exact ⟨by simp [rowSet, hk], fun _ => by simp [rowSet, hk], fun he => absurd he hk⟩
  -- step relation d3 → ct (rounding)
  have hrel4 : List.Forall₂ (List.Forall₂ (fun kv kv' : String × JVal =>
      kv'.1 = kv.1
      ∧ (kv.1 ∉ AL.cols_to_round → kv'.2 = kv.2)
      ∧ (kv.1 ∈ AL.cols_to_round → kv'.2 = roundCellTotal kv.2))) d3.rows ct.rows := by
    rw [hrows4]
    refine forall₂_of_map _ _ _ fun r hr => forall₂_of_map _ _ _ fun kv hkv => ?_
    by_cases hk : kv.1 ∈ AL.cols_to_round
    · exact ⟨by simp [hk], fun hne => absurd hk hne, fun _ => by simp [hk]⟩
    · exact ⟨by simp [hk], fun _ => by simp [hk], fun he => absurd he hk⟩
  -- compose df → d2
  have hA : List.Forall₂ (List.Forall₂ (fun kv kv' : String × JVal =>
      kv'.1 = kv.1
      ∧ (kv.1 = "maxSupply" →
          kv'.2.isNull = false ∧ (kv.2.isNull = true → kv'.2 = .num 0))
      ∧ (kv.1 = "explorer" → kv'.2 = kv.2))) df.rows d2.rows := by
    refine forall₂_trans_comp ?_ hrel1 hrel2
    intro r1 r2 r3 h12 h23
    refine forall₂_trans_comp ?_ h12 h23
    intro kv kv1 kv2 hx hy
    obtain ⟨hk1, hu1, ha1⟩ := hx
    obtain ⟨hk2, hu2, hv2⟩ := hy
    refine ⟨hk2.trans hk1, fun hms => ?_, fun hexp => ?_⟩
    · have hcast : astypeCell PType.float kv.2 = some kv1.2 :=
        ha1 PType.float (by rw [hms]; exact hmSspec) (by rw [hms]; exact hmSdf)
      have hfill : kv2.2 = (if kv1.2.isNull then JVal.num 0 else kv1.2) :=
        hv2 (hk1.trans hms)
      constructor
      · rw [hfill]
        by_cases hn : kv1.2.isNull = true
        · rw [if_pos hn]; rfl
        · rw [if_neg hn]; simpa using hn
      · intro hnull
        have hv : kv.2 = .null := isNull_eq_null kv.2 hnull
        rw [hv] at hcast
        have hk1null : kv1.2 = .null := by
          have h0 : (some JVal.null : Option JVal) = some kv1.2 := hcast
          exact (Option.some.inj h0).symm
        rw [hfill, hk1null]
        rfl
    · have hu : kv1.2 = kv.2 := hu1 (Or.inl (by rw [hexp]; exact hexpKeys))
      have hne : kv1.1 ≠ "maxSupply" := by
        rw [hk1, hexp]; with_unfolding_all decide
      rw [hu2 hne, hu]
  -- compose df → d3
  have hB : List.Forall₂ (List.Forall₂ (fun kv kv' : String × JVal =>
      kv'.1 = kv.1
      ∧ (kv.1 = "maxSupply" →
          kv'.2.isNull = false ∧ (kv.2.isNull = true → kv'.2 = .num 0))
      ∧ (kv.1 = "explorer" →
          kv'.2.isNull = false ∧ (kv.2.isNull = true → kv'.2 = .str "not available"))))
      df.rows d3.rows := by
    refine forall₂_trans_comp ?_ hA hrel3
    intro r1 r2 r3 h12 h23
    refine forall₂_trans_comp ?_ h12 h23
    intro kv kv2 kv3 hx hy
    obtain ⟨hk2, hms2, hexp2⟩ := hx
    obtain ⟨hk3, hu3, hv3⟩ := hy
    refine ⟨hk3.trans hk2, fun hms => ?_, fun hexp => ?_⟩
    · have hne : kv2.1 ≠ "explorer" := by
        rw [hk2, hms]; with_unfolding_all decide
      rw [hu3 hne]
      exact hms2 hms
    · have hfill : kv3.2 = (if kv2.2.isNull then JVal.str "not available" else kv2.2) :=
        hv3 (hk2.trans hexp)
      have hu : kv2.2 = kv.2 := hexp2 hexp
      constructor
      · rw [hfill]
        by_cases hn : kv2.2.isNull = true
        · rw [if_pos hn]; rfl
        · rw [if_neg hn]; simpa using hn
      · intro hnull
        rw [hfill, hu, if_pos hnull]
  -- compose df → ct
  have hF : List.Forall₂ (List.Forall₂ (fun kv kv' : String × JVal =>
      kv'.1 = kv.1
      ∧ (kv.1 = "maxSupply" →
          kv'.2.isNull = false ∧ (kv.2.isNull = true → kv'.2 = .num 0))
      ∧ (kv.1 = "explorer" →
          kv'.2.isNull = false ∧ (kv.2.isNull = true → kv'.2 = .str "not available"))))
      df.rows ct.rows := by
    refine forall₂_trans_comp ?_ hB hrel4
    intro r1 r2 r3 h12 h23
    refine forall₂_trans_comp ?_ h12 h23
    intro kv kv3 kv4 hx hy
    obtain ⟨hk3, hms3, hexp3⟩ := hx
    obtain ⟨hk4, hu4, hv4⟩ := hy
    refine ⟨hk4.trans hk3, fun hms => ?_, fun hexp => ?_⟩
    · have hround : kv4.2 = roundCellTotal kv3.2 := hv4 (by rw [hk3, hms]; exact hmScs)
      obtain ⟨hnn, hnull⟩ := hms3 hms
      constructor
      · rw [hround, isNull_roundCellTotal]; exact hnn
      · intro hn
        rw [hround, hnull hn]
        show JVal.num (round2 0) = JVal.num 0
        rw [round2_zero]
    · have hkeep : kv4.2 = kv3.2 := hu4 (by rw [hk3, hexp]; exact hexpCs)
      rw [hkeep]
      exact hexp3 hexp
  refine ⟨?_, ?_, ?_⟩
  · intro r hr v hv
    obtain ⟨r0, _, hrowrel⟩ := forall₂_mem_right hF r hr
    obtain ⟨kv, _, hcell⟩ := forall₂_mem_right hrowrel ("maxSupply", v) hv
    have hk : kv.1 = "maxSupply" := hcell.1.symm
    exact (hcell.2.1 hk).1
  · intro r hr v hv
    obtain ⟨r0, _, hrowrel⟩ := forall₂_mem_right hF r hr
    obtain ⟨kv, _, hcell⟩ := forall₂_mem_right hrowrel ("explorer", v) hv
    have hk : kv.1 = "explorer" := hcell.1.symm
    exact (hcell.2.2 hk).1
  · refine List.Forall₂.imp (fun r r' hr => hr.imp fun kv kv' hkv => ?_) hF
    exact ⟨hkv.1, fun hms hn => (hkv.2.1 hms).2 hn, fun hexp hn => (hkv.2.2 hexp).2 hn⟩

/-- An asset-listing table whose null-substitution columns are entirely
null. -/
def c3df : DataFrame :=
  ⟨["supply", "maxSupply", "marketCapUsd", "priceUsd", "changePercent24Hr",
    "vwap24Hr", "explorer"],
   [[("supply", .str "1.5"), ("maxSupply", .null), ("marketCapUsd", .null),
     ("priceUsd", .null), ("changePercent24Hr", .null), ("vwap24Hr", .null),
     ("explorer", .null)],
    [("supply", .str "2.5"), ("maxSupply", .null), ("marketCapUsd", .null),
     ("priceUsd", .null), ("changePercent24Hr", .null), ("vwap24Hr", .null),
     ("explorer", .null)]]⟩

/-- `c3df` after the asset-listing clean. -/
def c3ct : DataFrame :=
  ⟨["supply", "maxSupply", "marketCapUsd", "priceUsd", "changePercent24Hr",
    "vwap24Hr", "explorer"],
   [[("supply", .num (3 / 2 : ℚ)), ("maxSupply", .num 0), ("marketCapUsd", .null),
     ("priceUsd", .null), ("changePercent24Hr", .null), ("vwap24Hr", .null),
     ("explorer", .str "not available")],
    [("supply", .num (5 / 2 : ℚ)), ("maxSupply", .num 0), ("marketCapUsd", .null),
     ("priceUsd", .null), ("changePercent24Hr", .null), ("vwap24Hr", .null),
     ("explorer", .str "not available")]]⟩

/-- Witness for `clean_null_substitution` on the all-null table `c3df`. -/
theorem clean_null_substitution_witness :
    (∀ r ∈ c3ct.rows, ∀ v : JVal, ("maxSupply", v) ∈ r → v.isNull = false)
  ∧ (∀ r ∈ c3ct.rows, ∀ v : JVal, ("explorer", v) ∈ r → v.isNull = false)
  ∧ List.Forall₂ (List.Forall₂ (fun kv kv' : String × JVal => kv'.1 = kv.1
      ∧ (kv.1 = "maxSupply" → kv.2.isNull = true → kv'.2 = .num 0)
      ∧ (kv.1 = "explorer" → kv.2.isNull = true → kv'.2 = .str "not available")))
      c3df.rows c3ct.rows :=
  clean_null_substitution c3df c3ct (by with_unfolding_all rfl)

theorem cells_of_map_rows (rows : List (List (String × JVal)))
    (g : (String × JVal) → (String × JVal))
    (r' : List (String × JVal)) (hr' : r' ∈ rows.map (fun r => r.map g))
    (kv' : String × JVal) (hkv' : kv' ∈ r') :
    ∃ r ∈ rows, ∃ kv ∈ r, kv' = g kv := by
  obtain ⟨r, hr, rfl⟩ := List.mem_map.mp hr'
  obtain ⟨kv, hkv, rfl⟩ := List.mem_map.mp hkv'
  exact ⟨r, hr, kv, hkv, rfl⟩

/-- C7: the asset-listing clean is idempotent on its own output —
re-running the coercion and rounding stages on a CleanedTable returns it
unchanged. -/
theorem clean_idempotent (df ct : DataFrame) (h : AL.cleanTable df = .ok ct) :
    AL.reclean ct = .ok ct := by
  unfold AL.cleanTable at h
  rcases h1 : convert_cols_cat_to_num df AL.cols_datatypes with e | d1 <;> rw [h1] at h
  · simp at h
  simp only [exceptOkBind] at h
  rcases h2 : fillnaCol "maxSupply" (.num 0) d1 with e | d2 <;> rw [h2] at h
  · simp at h
  simp only [exceptOkBind] at h
  rcases h3 : fillnaCol "explorer" (.str "not available") d2 with e | d3 <;> rw [h3] at h
  · simp at h
  simp only [exceptOkBind] at h
  have hnd : (AL.cols_datatypes.map Prod.fst).Nodup := by with_unfolding_all decide
  obtain ⟨hc1, hrel1⟩ := convert_rel AL.cols_datatypes hnd df d1 h1
  obtain ⟨hm2, hc2, hrows2⟩ := fillnaCol_ok "maxSupply" (.num 0) d1 d2 h2
  obtain ⟨hm3, hc3, hrows3⟩ := fillnaCol_ok "explorer" (.str "not available") d2 d3 h3
  obtain ⟨hmem4, hrnd4, hc4, hrows4⟩ := roundCols_ok AL.cols_to_round d3 ct h
  have hctcols : ct.cols = df.cols := by rw [hc4, hc3, hc2, hc1]
  have hmaxty : ∀ p ∈ AL.cols_datatypes, p.1 = "maxSupply" → p.2 = PType.float := by
    with_unfolding_all decide
  have hcsty : ∀ p ∈ AL.cols_datatypes, p.1 ∈ AL.cols_to_round → p.2 = PType.float := by
    with_unfolding_all decide
  have hexpKeys : "explorer" ∉ AL.cols_datatypes.map Prod.fst := by
    with_unfolding_all decide
  -- fixedness of dictionary-column cells after each stage
  have hFix1 : ∀ p ∈ AL.cols_datatypes, p.1 ∈ df.cols →
      ∀ r ∈ d1.rows, ∀ kv ∈ r, kv.1 = p.1 → astypeCell p.2 kv.2 = some kv.2 := by
    intro p hp hpc r hr kv hkv hk
    obtain ⟨r0, _, hrowrel⟩ := forall₂_mem_right hrel1 r hr
    obtain ⟨kv0, _, hcell⟩ := forall₂_mem_right hrowrel kv hkv
    have hcast := hcell.2.2 p.2 (by rw [← hcell.1, hk]; exact hp)
      (by rw [← hcell.1, hk]; exact hpc)
    exact astypeCell_idem p.2 kv0.2 kv.2 hcast
  have hFix2 : ∀ p ∈ AL.cols_datatypes, p.1 ∈ df.cols →
      ∀ r ∈ d2.rows, ∀ kv ∈ r, kv.1 = p.1 → astypeCell p.2 kv.2 = some kv.2 := by
    intro p hp hpc r hr kv hkv hk
    rw [hrows2] at hr
    obtain ⟨r0, hr0, kv0, hkv0, rfl⟩ := cells_of_map_rows d1.rows _ r hr kv hkv
    by_cases hkey : kv0.1 = "maxSupply"
    · rw [if_pos hkey] at hk ⊢
      have hk1 : kv0.1 = p.1 := hk
      have hp2 : p.2 = PType.float := hmaxty p hp (by rw [← hk1]; exact hkey)
      show astypeCell p.2 (if kv0.2.isNull = true then JVal.num 0 else kv0.2)
        = some (if kv0.2.isNull = true then JVal.num 0 else kv0.2)
      rw [hp2]
      by_cases hn : kv0.2.isNull = true
      · rw [if_pos hn]; rfl
      · rw [if_neg hn]
        have hfx := hFix1 p hp hpc r0 hr0 kv0 hkv0 hk1
        rw [hp2] at hfx
        exact hfx
    · rw [if_neg hkey] at hk ⊢
      exact hFix1 p hp hpc r0 hr0 kv0 hkv0 hk
  have hFix3 : ∀ p ∈ AL.cols_datatypes, p.1 ∈ df.cols →
      ∀ r ∈ d3.rows, ∀ kv ∈ r, kv.1 = p.1 → astypeCell p.2 kv.2 = some kv.2 := by
    intro p hp hpc r hr kv hkv hk
    rw [hrows3] at hr
    obtain ⟨r0, hr0, kv0, hkv0, rfl⟩ := cells_of_map_rows d2.rows _ r hr kv hkv
    by_cases hkey : kv0.1 = "explorer"
    · exfalso
      rw [if_pos hkey] at hk
      have hk1 : kv0.1 = p.1 := hk
      apply hexpKeys
      have : p.1 = "explorer" := by rw [← hk1, hkey]
      rw [← this]
      exact List.mem_map.mpr ⟨p, hp, rfl⟩
    · rw [if_neg hkey] at hk ⊢
      exact hFix2 p hp hpc r0 hr0 kv0 hkv0 hk
  have hFix4 : ∀ p ∈ AL.cols_datatypes, p.1 ∈ df.cols →
      ∀ r ∈ ct.rows, ∀ kv ∈ r, kv.1 = p.1 → astypeCell p.2 kv.2 = some kv.2 := by
    intro p hp hpc r hr kv hkv hk
    rw [hrows4] at hr
    obtain ⟨r0, hr0, kv0, hkv0, rfl⟩ := cells_of_map_rows d3.rows _ r hr kv hkv
    by_cases hkey : kv0.1 ∈ AL.cols_to_round
    · rw [if_pos hkey] at hk ⊢
      have hk1 : kv0.1 = p.1 := hk
      have hp2 : p.2 = PType.float := hcsty p hp (by rw [← hk1]; exact hkey)
      show astypeCell p.2 (roundCellTotal kv0.2) = some (roundCellTotal kv0.2)
      rw [hp2]
      have hfx := hFix3 p hp hpc r0 hr0 kv0 hkv0 hk1
      rw [hp2] at hfx
      exact astypeCell_float_roundCellTotal kv0.2 hfx
    · rw [if_neg hkey] at hk ⊢
      exact hFix3 p hp hpc r0 hr0 kv0 hkv0 hk
  -- re-running coercion is the identity
  have hconv2 : convert_cols_cat_to_num ct AL.cols_datatypes = .ok ct := by
    apply convert_id
    intro p hp
    by_cases hpc : p.1 ∈ df.cols
    · exact Or.inr (hFix4 p hp hpc)
    · exact Or.inl (by rw [hctcols]; exact hpc)
  -- re-running rounding is the identity
  have hround2 : roundCols AL.cols_to_round ct = .ok ct := by
    apply roundCols_id
    · intro c hc
      rw [hc4]
      exact hmem4 c hc
    · intro r hr kv hkv hkc
      rw [hrows4] at hr
      obtain ⟨r0, hr0, kv0, hkv0, rfl⟩ := cells_of_map_rows d3.rows _ r hr kv hkv
      by_cases hkey : kv0.1 ∈ AL.cols_to_round
      · simp only [if_pos hkey]
        have hrd : roundableCell kv0.2 = true := by
          have hcol := hrnd4 kv0.1 hkey
          have hrow := (List.all_eq_true.mp hcol) r0 hr0
          have hcell := (List.all_eq_true.mp hrow) kv0 hkv0
          simpa using hcell
        exact ⟨by rw [roundableCell_roundCellTotal]; exact hrd,
               roundCellTotal_idem kv0.2⟩
      · exact absurd (by simpa [if_neg hkey] using hkc) hkey
  unfold AL.reclean
  rw [hconv2]
  simp only [exceptOkBind]
  exact hround2

/-- Witness for `clean_idempotent`: recleaning the cleaned all-null table
returns it unchanged. -/
theorem clean_idempotent_witness : AL.reclean c3ct = .ok c3ct :=
  clean_idempotent c3df c3ct (by with_unfolding_all rfl)

theorem addKey_mem (acc : List String) (k c : String) :
    c ∈ addKey acc k ↔ c ∈ acc ∨ c = k := by
  unfold addKey
  by_cases hk : k ∈ acc
  · rw [if_pos hk]
    constructor
    · exact Or.inl
    · rintro (h | rfl)
      · exact h
      · exact hk
  · rw [if_neg hk]
    simp [List.mem_append]

theorem foldl_addKey_mem :
    ∀ (ks acc : List String) (c : String),
      c ∈ ks.foldl addKey acc ↔ c ∈ acc ∨ c ∈ ks := by
  intro ks
  induction ks with
  | nil => simp
  | cons k t ih =>
    intro acc c
    rw [List.foldl_cons, ih, addKey_mem]
    simp [List.mem_cons]
    tauto

theorem unionKeys_mem (kss : List (List String)) (c : String) :
    c ∈ unionKeys kss ↔ ∃ ks ∈ kss, c ∈ ks := by
  suffices h : ∀ acc, c ∈ kss.foldl (fun acc ks => ks.foldl addKey acc) acc
      ↔ c ∈ acc ∨ ∃ ks ∈ kss, c ∈ ks by
    simpa [unionKeys] using h []
  induction kss with
  | nil => simp
  | cons ks t ih =>
    intro acc
    rw [List.foldl_cons, ih, foldl_addKey_mem]
    simp only [List.mem_cons]
    constructor
    · rintro ((h | h) | ⟨ks1, h1, h2⟩)
      · exact Or.inl h
      · exact Or.inr ⟨ks, Or.inl rfl, h⟩
      · exact Or.inr ⟨ks1, Or.inr h1, h2⟩
    · rintro (h | ⟨ks1, (rfl | h1), h2⟩)
      · exact Or.inl (Or.inl h)
      · exact Or.inl (Or.inr h2)
      · exact Or.inr ⟨ks1, h1, h2⟩

/-- C5: on a well-formed RawResponse — a JSON object whose `data` field is a
list of objects — `json_normalize` succeeds with one row per record in the
original order, and its column set is exactly the union of the (flattened)
keys observed across the records. -/
theorem normalize_shape (fs : List (String × JVal)) (recs : List JVal) (sep : String)
    (hdata : fs.lookup "data" = some (.arr recs)) (hobj : recs.all JVal.isObj = true) :
    ∃ df, json_normalize (.obj fs) "data" sep = .ok df
    ∧ df.rows.length = recs.length
    ∧ (∀ c, c ∈ df.cols ↔ ∃ r ∈ recs, c ∈ (flattenFields sep "" r.objFields).map Prod.fst)
    ∧ df.rows = recs.map (fun r => df.cols.map (fun c =>
        (c, ((flattenFields sep "" r.objFields).lookup c).getD .null))) := by
  refine ⟨⟨unionKeys ((recs.map (fun r => flattenFields sep "" r.objFields)).map
      (fun fr => fr.map Prod.fst)),
    (recs.map (fun r => flattenFields sep "" r.objFields)).map (fun fr =>
      (unionKeys ((recs.map (fun r => flattenFields sep "" r.objFields)).map
        (fun fr => fr.map Prod.fst))).map
          (fun c => (c, (fr.lookup c).getD .null)))⟩, ?_, ?_, ?_, ?_⟩
  · simp [json_normalize, hdata, hobj]
  · simp
  · intro c
    rw [unionKeys_mem]
    constructor
    · rintro ⟨ks, hks, hc⟩
      obtain ⟨fr, hfr, rfl⟩ := List.mem_map.mp hks
      obtain ⟨r, hr, rfl⟩ := List.mem_map.mp hfr
      exact ⟨r, hr, hc⟩
    · rintro ⟨r, hr, hc⟩
      exact ⟨_, List.mem_map.mpr ⟨_, List.mem_map.mpr ⟨r, hr, rfl⟩, rfl⟩, hc⟩
  · simp only [List.map_map]
    rfl

/-- The record list of the C5 witness response: two flat-plus-nested
records with different key sets. -/
def c5recs : List JVal :=
  [.obj [("a", .num 1), ("info", .obj [("url", .str "u")])],
   .obj [("b", .null), ("a", .num 2)]]

/-- The C5 witness response fields. -/
def c5fs : List (String × JVal) := [("data", .arr c5recs), ("timestamp", .num 5)]

/-- Witness for `normalize_shape` on the concrete response `c5fs`. -/
theorem normalize_shape_witness :
    ∃ df, json_normalize (.obj c5fs) "data" "." = .ok df
    ∧ df.rows.length = c5recs.length
    ∧ (∀ c, c ∈ df.cols ↔ ∃ r ∈ c5recs, c ∈ (flattenFields "." "" r.objFields).map Prod.fst)
    ∧ df.rows = c5recs.map (fun r => df.cols.map (fun c =>
        (c, ((flattenFields "." "" r.objFields).lookup c).getD .null))) :=
  normalize_shape c5fs c5recs "." (by with_unfolding_all rfl) (by with_unfolding_all rfl)
